import Mathlib

/-!
Verification development for `canvas_completion_grader.py`.

Conventions of the shallow embedding:
* Python strings are Lean `String`s; the string operations the program uses
  (`strip`, `lower`, `isdigit`, `int(...)`, lexicographic order) are re-implemented
  structurally over `String.data` so that every definition evaluates by kernel reduction.
* Instants (`datetime` values) are integers, in seconds; `timedelta(days=d)` is `86400 * d`.
* Sleep durations are measured in quarter time-units, so that the code's
  `min(60, 2.0 ** attempt * 0.25)` seconds is exactly the natural number
  `min 240 (2 ^ attempt)` quarters, and `min(60, int(2.0 ** attempt))` seconds is
  `min 240 (4 * 2 ^ attempt)` quarters.  All the floats involved are exact.
* `points_possible` is a JSON number; it is modeled in fixed-point hundredths of a
  point, and Python `int(...)` truncation toward zero is `Int.tdiv · 100`.
* The HTTP transport, the `dateutil` datetime parsing and the remote Canvas state
  are external collaborators; they enter as explicit function parameters.
* Python code that can raise an uncaught exception is modeled with `Except String`.
-/

/-- Lowercase one ASCII character, as Python `str.lower` does on the ASCII
strings this program compares. -/
def charLower (c : Char) : Char :=
  if 65 ≤ c.toNat ∧ c.toNat ≤ 90 then Char.ofNat (c.toNat + 32) else c

/-- Whitespace recognized by Python `str.strip`. -/
def isSpaceChar (c : Char) : Bool :=
  c.toNat == 32 || c.toNat == 9 || c.toNat == 10 || c.toNat == 13 || c.toNat == 11 || c.toNat == 12

/-- Python `str.strip`: drop whitespace from both ends. -/
def pyStrip (s : String) : String :=
  String.mk (((s.data.dropWhile isSpaceChar).reverse.dropWhile isSpaceChar).reverse)

/-- Python `str.lower` (ASCII fragment). -/
def pyLower (s : String) : String :=
  String.mk (s.data.map charLower)

/-- Python `str.isdigit`: nonempty and all decimal digits (ASCII fragment). -/
def pyIsDigit (s : String) : Bool :=
  !s.data.isEmpty && s.data.all (fun c => 48 ≤ c.toNat && c.toNat ≤ 57)

/-- Python `int(s)` on a digit string. -/
def pyToNat (s : String) : ℕ :=
  s.data.foldl (fun n c => 10 * n + (c.toNat - 48)) 0

/-- Lexicographic comparison of char lists by code point; this is how Python
compares two `str` values with `<` and `<=`. -/
def lexLe : List Char → List Char → Bool
  | [], _ => true
  | _ :: _, [] => false
  | a :: as, b :: bs =>
    if a.toNat < b.toNat then true
    else if b.toNat < a.toNat then false
    else lexLe as bs

/-- Python string `<=` on `String`. -/
def strLeb (a b : String) : Bool := lexLe a.data b.data

/-- One attempt of `CanvasClient._request` (line 123): either the transport raises
`requests.RequestException`, or a response arrives with a status code and an
optional `Retry-After` header. -/
inductive HttpOutcome where
  | exn : HttpOutcome
  | resp (status : ℕ) (retryAfter : Option String) : HttpOutcome

/-- What `_request` does for the caller: propagate the transport error, or return
a response with the given status. -/
inductive ReqResult where
  | raised : ReqResult
  | returned (status : ℕ) : ReqResult
deriving DecidableEq, Repr

/-- `max_attempts = 8` (line 118). -/
def max_attempts : ℕ := 8

/-- Backoff sleep of lines 133 and 148, `min(60, backoff ** attempt * 0.25)`
seconds with `backoff = 2.0`, in quarter time-units. -/
def backoffSleepQ (attempt : ℕ) : ℕ := min 240 (2 ^ attempt)

/-- Rate-limit sleep of line 140: `int(retry_after) + 1` seconds when the header
is present and numeric, else `min(60, int(backoff ** attempt))` seconds; in
quarter time-units. -/
def rateLimitSleepQ (retryAfter : Option String) (attempt : ℕ) : ℕ :=
  match retryAfter with
  | some s => if pyIsDigit s then 4 * (pyToNat s + 1) else min 240 (4 * 2 ^ attempt)
  | none => min 240 (4 * 2 ^ attempt)

/-- The attempt loop of `CanvasClient._request` (lines 121-155).  `oc i` is what
attempt `i` produces; `fuel` counts the remaining iterations of
`for attempt in range(1, max_attempts + 1)`, `lastStatus` is the status of the
response bound by the previous iteration (relevant only to the fall-through
`return resp` at line 155, reachable when the final attempt hits a 429), and
`sleeps` accumulates every `time.sleep` in reverse.  Returns the call's result
together with the chronological list of sleeps, in quarter time-units. -/
def requestLoop (oc : ℕ → HttpOutcome) : ℕ → ℕ → ℕ → List ℕ → ReqResult × List ℕ
  | 0, _, lastStatus, sleeps => (ReqResult.returned lastStatus, sleeps.reverse)
  | fuel + 1, attempt, lastStatus, sleeps =>
    match oc attempt with
    | HttpOutcome.exn =>
      if attempt = max_attempts then (ReqResult.raised, sleeps.reverse)
      else requestLoop oc fuel (attempt + 1) lastStatus (backoffSleepQ attempt :: sleeps)
    | HttpOutcome.resp status ra =>
      if status = 429 then
        requestLoop oc fuel (attempt + 1) status (rateLimitSleepQ ra attempt :: sleeps)
      else if 500 ≤ status ∧ status ≤ 599 then
        if attempt = max_attempts then (ReqResult.returned status, sleeps.reverse)
        else requestLoop oc fuel (attempt + 1) status (backoffSleepQ attempt :: sleeps)
      else (ReqResult.returned status, sleeps.reverse)

/-- `CanvasClient._request`: run the attempt loop from attempt 1 with the full
budget of `max_attempts` iterations. -/
def clientRequest (oc : ℕ → HttpOutcome) : ReqResult × List ℕ :=
  requestLoop oc max_attempts 1 0 []

/-- Body of a JSON page response as `_get_paginated` inspects it (line 184):
either a JSON array or a single JSON object.  Items are abstract. -/
inductive PageBody (α : Type) where
  | list (items : List α) : PageBody α
  | single (item : α) : PageBody α

/-- One HTTP page response as the pagination reader sees it: status code,
optional `Retry-After` header, parsed body, and the `rel="next"` target
extracted from the `Link` header (absent when there is no next page). -/
structure Page (α : Type) where
  status : ℕ
  retryAfter : Option String
  body : PageBody α
  next : Option String

/-- Items yielded from one page body (lines 184-188 and 205-210): each element
of an array, or the single object itself. -/
def pageYield {α : Type} : PageBody α → List α
  | PageBody.list xs => xs
  | PageBody.single x => [x]

/-- `requests.Response.ok`: status below 400. -/
def respOk (status : ℕ) : Bool := status < 400

/-- The `while next_url` loop of `_get_paginated` (lines 194-214).  `server n u`
is the response to the `n`-th HTTP fetch of the walk (0-based) when it requests
url `u`; `calls` counts fetches already made; `fuel` bounds the loop (the model
returns an out-of-fuel error that the theorems never reach).  On a 429 the same
url is retried; on a non-ok status the walk raises `RuntimeError`; otherwise the
page's items are appended and the next reference followed.  Returns the yielded
items with the total number of fetch calls. -/
def paginateNextLoop {α : Type} (server : ℕ → String → Page α) :
    ℕ → ℕ → String → List α → Except String (List α × ℕ)
  | 0, _, _, _ => Except.error "out of fuel"
  | fuel + 1, calls, url, acc =>
    let p := server calls url
    if p.status = 429 then paginateNextLoop server fuel (calls + 1) url acc
    else if !respOk p.status then Except.error "RuntimeError: GET next page failed"
    else
      match p.next with
      | none => Except.ok (acc ++ pageYield p.body, calls + 1)
      | some u => paginateNextLoop server fuel (calls + 1) u (acc ++ pageYield p.body)

/-- `CanvasClient._get_paginated` (lines 178-214).  The first page is fetched
through `_request` (one HTTP call on the statuses these theorems use, since 429
and 5xx are the only statuses `_request` retries); a non-ok first response
raises `RuntimeError`; then the `rel="next"` chain is walked. -/
def getPaginated {α : Type} (server : ℕ → String → Page α) (fuel : ℕ)
    (firstUrl : String) : Except String (List α × ℕ) :=
  let p := server 0 firstUrl
  if !respOk p.status then Except.error "RuntimeError: GET failed"
  else
    match p.next with
    | none => Except.ok (pageYield p.body, 1)
    | some u => paginateNextLoop server fuel 1 u (pageYield p.body)

/-- `parse_canvas_datetime` (lines 244-247).  `iso` models
`dateutil.parser.isoparse`: `some t` is the parsed instant, `none` means the
string is unparseable and `isoparse` raises `ValueError` — which this function
does not catch.  A `None` or empty input is falsy and returns `None`. -/
def parse_canvas_datetime (iso : String → Option ℤ) (s : Option String) :
    Except String (Option ℤ) :=
  match s with
  | none => Except.ok none
  | some str =>
    if str.data.isEmpty then Except.ok none
    else
      match iso str with
      | some t => Except.ok (some t)
      | none => Except.error "ValueError: unparseable datetime"

/-- `is_within_window` (lines 250-251): `start <= due_at < end`. -/
def is_within_window (due_at start_t end_t : ℤ) : Bool :=
  decide (start_t ≤ due_at) && decide (due_at < end_t)

/-- One day of `timedelta(days=1)`, in seconds. -/
def secondsPerDay : ℤ := 86400

/-- `compute_due_window` (lines 262-267): `start = now - (grace + window) days`,
`end = now - grace days`. -/
def compute_due_window (now_local : ℤ) (grace_days window_days : ℤ) : ℤ × ℤ :=
  (now_local - secondsPerDay * (grace_days + window_days),
   now_local - secondsPerDay * grace_days)

/-- `should_run_now` (lines 254-259), with the local wall clock passed in. -/
def should_run_now (enforce_thursday_5pm : Bool) (weekday hour minute : ℕ) : Bool :=
  if !enforce_thursday_5pm then true
  else decide (weekday = 3) && decide (hour = 17) && decide (minute = 0)

/-- `normalize_ci_grade` (lines 270-276). -/
def normalize_ci_grade (value : Option String) : Option String :=
  match value with
  | none => none
  | some value0 =>
    let v := pyLower (pyStrip value0)
    if v = "complete" ∨ v = "incomplete" then some v else none

/-- Assignment fields the program reads.  `assignment_group_id` is kept in the
string form Python's `str(...)` would produce for the JSON value;
`points_possible` is in fixed-point hundredths of a point. -/
structure Assignment where
  id : ℤ
  due_at : Option String
  grading_type : Option String
  assignment_group_id : Option String
  points_possible : Option ℤ
deriving DecidableEq, Repr

/-- Submission fields the program reads. -/
structure Submission where
  user_id : Option ℤ
  submitted_at : Option String
  posted_grade : Option String
  grade : Option String
deriving DecidableEq, Repr

/-- The configuration fields `main` consults (the `Config` dataclass,
lines 31-51; loading from the environment is an external collaborator). -/
structure Config where
  grace_days : ℤ
  window_days : ℤ
  assignment_group_id : Option String
  dry_run : Bool
  enforce_thursday_5pm : Bool
  require_complete_incomplete : Bool
deriving DecidableEq, Repr

/-- The run's external collaborators: `iso` models `dateutil.parser.isoparse`
(`none` = raises `ValueError`); `subsOf a` is the submission list for assignment
`a`, `none` when `list_submissions` raises; `writeOk a u` tells whether the
grade write for assignment `a`, user `u` succeeds. -/
structure Env where
  iso : String → Option ℤ
  subsOf : ℤ → Option (List Submission)
  writeOk : ℤ → ℤ → Bool

/-- Python `str(x)` of an optional string value: `str(None)` is `"None"`. -/
def pyStrOpt (o : Option String) : String :=
  match o with
  | none => "None"
  | some s => s

/-- The group filter of line 304: active when `cfg.assignment_group_id` is
truthy (non-`None` and nonempty), excluding assignments whose stringified group
id differs. -/
def groupFilterExcludes (cfg : Config) (a : Assignment) : Bool :=
  match cfg.assignment_group_id with
  | none => false
  | some g => !g.data.isEmpty && decide (pyStrOpt a.assignment_group_id ≠ g)

/-- The eligibility loop of `main` (lines 298-311): parse the due timestamp
(propagating the uncaught `ValueError` of an unparseable one), skip `None` due
dates, apply the group filter, the `complete_incomplete` filter, and the window
test, keeping input order. -/
def eligibleAssignments (iso : String → Option ℤ) (cfg : Config)
    (start_t end_t : ℤ) : List Assignment → Except String (List Assignment)
  | [] => Except.ok []
  | a :: rest =>
    match parse_canvas_datetime iso a.due_at with
    | Except.error e => Except.error e
    | Except.ok none => eligibleAssignments iso cfg start_t end_t rest
    | Except.ok (some d) =>
      if groupFilterExcludes cfg a then eligibleAssignments iso cfg start_t end_t rest
      else if cfg.require_complete_incomplete && decide (a.grading_type ≠ some "complete_incomplete") then
        eligibleAssignments iso cfg start_t end_t rest
      else if is_within_window d start_t end_t then
        match eligibleAssignments iso cfg start_t end_t rest with
        | Except.error e => Except.error e
        | Except.ok tl => Except.ok (a :: tl)
      else eligibleAssignments iso cfg start_t end_t rest

/-- Sort key of line 313: `x.get("due_at") or ""`. -/
def sortKey (a : Assignment) : String := a.due_at.getD ""

/-- Stable insertion of `x` after every earlier element `y` with `le y x`. -/
def insertSorted {α : Type} (le : α → α → Bool) (x : α) : List α → List α
  | [] => [x]
  | y :: ys => if le y x then y :: insertSorted le x ys else x :: y :: ys

/-- Python's `list.sort` is an ascending stable sort; a stable sort is uniquely
determined by the order, so this stable insertion sort is its model. -/
def pySort {α : Type} (le : α → α → Bool) (l : List α) : List α :=
  l.foldl (fun acc x => insertSorted le x acc) []

/-- The fate of one submission in the per-submission loop (lines 335-371). -/
inductive SubAction where
  | skipNoUser : SubAction
  | skipSame (user_id : ℤ) (desired : String) : SubAction
  | dryRunUpdate (user_id : ℤ) (desired : String) : SubAction
  | wroteUpdate (user_id : ℤ) (desired : String) : SubAction
  | failedUpdate (user_id : ℤ) (desired : String) : SubAction
deriving DecidableEq, Repr

/-- Desired grade of one submission (the code of lines 344-353): for a
`complete_incomplete` assignment, by submission presence; otherwise the
stringified truncated full-point value (default 1) or `"0"`. -/
def desiredForCode (a : Assignment) (submitted_at : Option ℤ) : String :=
  if a.grading_type = some "complete_incomplete" then
    if submitted_at.isSome then "complete" else "incomplete"
  else
    if submitted_at.isSome then
      toString (match a.points_possible with
        | some p => Int.tdiv p 100
        | none => (1 : ℤ))
    else "0"

/-- Current grade of line 356:
`normalize_ci_grade(s.posted_grade) or normalize_ci_grade(s.grade)`. -/
def currentGrade (s : Submission) : Option String :=
  match normalize_ci_grade s.posted_grade with
  | some v => some v
  | none => normalize_ci_grade s.grade

/-- One iteration of the per-submission loop (lines 335-371): skip a missing
user id; parse `submitted_at` (uncaught `ValueError` propagates); compute the
desired grade; skip when the normalized current grade equals it; in dry-run
only count; otherwise attempt the write, a failure being caught and counted. -/
def processSubmission (cfg : Config) (env : Env) (a : Assignment)
    (s : Submission) : Except String SubAction :=
  match s.user_id with
  | none => Except.ok SubAction.skipNoUser
  | some uid =>
    match parse_canvas_datetime env.iso s.submitted_at with
    | Except.error e => Except.error e
    | Except.ok submitted =>
      let desired := desiredForCode a submitted
      if currentGrade s = some desired then Except.ok (SubAction.skipSame uid desired)
      else if cfg.dry_run then Except.ok (SubAction.dryRunUpdate uid desired)
      else if env.writeOk a.id uid then Except.ok (SubAction.wroteUpdate uid desired)
      else Except.ok (SubAction.failedUpdate uid desired)

/-- The desired value carried by a submission action, when one was computed. -/
def actionDesired : SubAction → Option String
  | SubAction.skipNoUser => none
  | SubAction.skipSame _ d => some d
  | SubAction.dryRunUpdate _ d => some d
  | SubAction.wroteUpdate _ d => some d
  | SubAction.failedUpdate _ d => some d

/-- The run's accumulated counts (lines 316-318). -/
structure Counters where
  updates : ℕ
  skips : ℕ
  errors : ℕ
deriving DecidableEq, Repr

/-- How one submission action updates the counters. -/
def applyAction (c : Counters) (act : SubAction) : Counters :=
  match act with
  | SubAction.skipNoUser => c
  | SubAction.skipSame _ _ => ⟨c.updates, c.skips + 1, c.errors⟩
  | SubAction.dryRunUpdate _ _ => ⟨c.updates + 1, c.skips, c.errors⟩
  | SubAction.wroteUpdate _ _ => ⟨c.updates + 1, c.skips, c.errors⟩
  | SubAction.failedUpdate _ _ => ⟨c.updates, c.skips, c.errors + 1⟩

/-- The inner submission loop of one assignment (lines 335-371). -/
def submissionsLoop (cfg : Config) (env : Env) (a : Assignment) :
    List Submission → Counters → Except String Counters
  | [], c => Except.ok c
  | s :: rest, c =>
    match processSubmission cfg env a s with
    | Except.error e => Except.error e
    | Except.ok act => submissionsLoop cfg env a rest (applyAction c act)

/-- The outer assignment loop of `main` (lines 320-377): a failed submission
fetch is caught, counted as one error and the assignment skipped; otherwise the
submission loop runs. -/
def assignmentsLoop (cfg : Config) (env : Env) :
    List Assignment → Counters → Except String Counters
  | [], c => Except.ok c
  | a :: rest, c =>
    match env.subsOf a.id with
    | none => assignmentsLoop cfg env rest ⟨c.updates, c.skips, c.errors + 1⟩
    | some subs =>
      match submissionsLoop cfg env a subs c with
      | Except.error e => Except.error e
      | Except.ok c2 => assignmentsLoop cfg env rest c2

/-- What a completed run reports: the `main` return value, the processed
(sorted eligible) assignments, and the final counters. -/
structure RunResult where
  exitCode : ℤ
  processed : List Assignment
  updates : ℕ
  skips : ℕ
  errors : ℕ
deriving DecidableEq, Repr

/-- `main` (lines 279-387) after configuration loading: the Thursday-5pm gate
(early return 0), window computation, assignment fetch (given as a parameter),
eligibility filter, the sort by raw `due_at` string, the grading loops, and the
final exit code `2` when not in dry-run with at least one error, else `0`. -/
def runMain (cfg : Config) (env : Env) (now_local : ℤ)
    (weekday hour minute : ℕ) (assignments : List Assignment) :
    Except String RunResult :=
  if !should_run_now cfg.enforce_thursday_5pm weekday hour minute then
    Except.ok ⟨0, [], 0, 0, 0⟩
  else
    match eligibleAssignments env.iso cfg
        (compute_due_window now_local cfg.grace_days cfg.window_days).1
        (compute_due_window now_local cfg.grace_days cfg.window_days).2
        assignments with
    | Except.error e => Except.error e
    | Except.ok elig =>
      match assignmentsLoop cfg env
          (pySort (fun a b => strLeb (sortKey a) (sortKey b)) elig) ⟨0, 0, 0⟩ with
      | Except.error e => Except.error e
      | Except.ok c =>
        Except.ok ⟨if !cfg.dry_run && decide (0 < c.errors) then 2 else 0,
          pySort (fun a b => strLeb (sortKey a) (sortKey b)) elig,
          c.updates, c.skips, c.errors⟩

/-- Desired-grade function in the words of the spec (section 4.4): if the
assignment's grading type is the binary-completion marker, the desired grade is
`"complete"` exactly when the submitted timestamp is non-null, else
`"incomplete"`; otherwise the stringified integer-truncated maximum point value
(default 1 when `points_possible` is absent) when submitted, else `"0"`. -/
def desiredGradeSpec (grading_type : Option String) (points_possible : Option ℤ)
    (submitted : Bool) : String :=
  if grading_type = some "complete_incomplete" then
    if submitted then "complete" else "incomplete"
  else
    if submitted then
      toString (match points_possible with
        | some p => Int.tdiv p 100
        | none => (1 : ℤ))
    else "0"

/-- Concrete model of `dateutil.parser.isoparse`, restricted to the literal
ISO-8601 timestamps used in this development; each listed string maps to its
instant in seconds since 2024-01-01T00:00:00Z, every other string is
unparseable (`isoparse` raises `ValueError`).  In particular
2024-01-02T00:00:00+09:00 is 2024-01-01T15:00:00Z, i.e. 54000, which is
earlier than 2024-01-01T20:00:00+00:00, i.e. 72000. -/
def isoparseModel (s : String) : Option ℤ :=
  if s = "2024-01-01T20:00:00+00:00" then some 72000
  else if s = "2024-01-02T00:00:00+09:00" then some 54000
  else if s = "2024-01-01T06:00:00+00:00" then some 21600
  else none

theorem lexLe_refl : ∀ as : List Char, lexLe as as = true
  | [] => rfl
  | a :: as => by simp [lexLe, lexLe_refl as]

theorem lexLe_total : ∀ as bs : List Char, lexLe as bs = true ∨ lexLe bs as = true
  | [], _ => Or.inl rfl
  | _ :: _, [] => Or.inr rfl
  | a :: as, b :: bs => by
    by_cases h1 : a.toNat < b.toNat
    · left; simp [lexLe, h1]
    · by_cases h2 : b.toNat < a.toNat
      · right; simp [lexLe, h1, h2]
      · have h3 := lexLe_total as bs
        rcases h3 with h3 | h3
        · left; simp [lexLe, h1, h2, h3]
        · right; simp [lexLe, h1, h2, h3]

theorem lexLe_trans : ∀ as bs cs : List Char,
    lexLe as bs = true → lexLe bs cs = true → lexLe as cs = true
  | [], _, _, _, _ => rfl
  | _ :: _, [], _, h1, _ => by simp [lexLe] at h1
  | _ :: _, _ :: _, [], _, h2 => by simp [lexLe] at h2
  | a :: as, b :: bs, c :: cs, h1, h2 => by
    simp only [lexLe] at h1 h2 ⊢
    by_cases hab : a.toNat < b.toNat
    · by_cases hbc : b.toNat < c.toNat
      · have hac : a.toNat < c.toNat := Nat.lt_trans hab hbc
        simp [hac]
      · by_cases hcb : c.toNat < b.toNat
        · rw [if_neg hbc, if_pos hcb] at h2
          exact absurd h2 (by simp)
        · have hac : a.toNat < c.toNat := by omega
          simp [hac]
    · by_cases hba : b.toNat < a.toNat
      · rw [if_neg hab, if_pos hba] at h1
        exact absurd h1 (by simp)
      · rw [if_neg hab, if_neg hba] at h1
        by_cases hbc : b.toNat < c.toNat
        · have hac : a.toNat < c.toNat := by omega
          simp [hac]
        · by_cases hcb : c.toNat < b.toNat
          · rw [if_neg hbc, if_pos hcb] at h2
            exact absurd h2 (by simp)
          · rw [if_neg hbc, if_neg hcb] at h2
            have hac : ¬ a.toNat < c.toNat := by omega
            have hca : ¬ c.toNat < a.toNat := by omega
            rw [if_neg hac, if_neg hca]
            exact lexLe_trans as bs cs h1 h2

theorem insertSorted_perm {α : Type} (le : α → α → Bool) (x : α) :
    ∀ l : List α, List.Perm (insertSorted le x l) (x :: l)
  | [] => List.Perm.refl _
  | y :: ys => by
    by_cases h : le y x = true
    · simp only [insertSorted, h, if_true]
      exact ((insertSorted_perm le x ys).cons y).trans (List.Perm.swap x y ys)
    · simp [insertSorted, h]

theorem pySortAux_perm {α : Type} (le : α → α → Bool) :
    ∀ (l acc : List α),
      List.Perm (List.foldl (fun acc x => insertSorted le x acc) acc l) (acc ++ l)
  | [], acc => by simp
  | x :: xs, acc => by
    have h1 := pySortAux_perm le xs (insertSorted le x acc)
    have h2 : List.Perm (insertSorted le x acc ++ xs) ((x :: acc) ++ xs) :=
      (insertSorted_perm le x acc).append_right xs
    have h3 : List.Perm ((x :: acc) ++ xs) (acc ++ x :: xs) := by
      simpa using List.perm_middle.symm
    simpa [List.foldl] using (h1.trans (h2.trans h3))

theorem pySort_perm {α : Type} (le : α → α → Bool) (l : List α) :
    List.Perm (pySort le l) l := by
  simpa [pySort] using pySortAux_perm le l []

theorem insertSorted_pairwise {α : Type} (le : α → α → Bool)
    (htot : ∀ a b, le a b = true ∨ le b a = true)
    (htrans : ∀ a b c, le a b = true → le b c = true → le a c = true) (x : α) :
    ∀ l : List α, List.Pairwise (fun a b => le a b = true) l →
      List.Pairwise (fun a b => le a b = true) (insertSorted le x l)
  | [], _ => by simp [insertSorted]
  | y :: ys, h => by
    rcases List.pairwise_cons.mp h with ⟨hy, hys⟩
    by_cases hle : le y x = true
    · simp only [insertSorted, hle, if_true]
      refine List.pairwise_cons.mpr ⟨?_, insertSorted_pairwise le htot htrans x ys hys⟩
      intro z hz
      have hz2 : z = x ∨ z ∈ ys := by
        have := (insertSorted_perm le x ys).mem_iff.mp hz
        simpa using this
      rcases hz2 with rfl | hz2
      · exact hle
      · exact hy z hz2
    · have hxy : le x y = true := (htot y x).resolve_left hle
      simp only [insertSorted, hle, if_false, Bool.false_eq_true]
      refine List.pairwise_cons.mpr ⟨?_, h⟩
      intro z hz
      rcases List.mem_cons.mp hz with rfl | hz2
      · exact hxy
      · exact htrans x y z hxy (hy z hz2)

theorem pySortAux_pairwise {α : Type} (le : α → α → Bool)
    (htot : ∀ a b, le a b = true ∨ le b a = true)
    (htrans : ∀ a b c, le a b = true → le b c = true → le a c = true) :
    ∀ (l acc : List α), List.Pairwise (fun a b => le a b = true) acc →
      List.Pairwise (fun a b => le a b = true)
        (List.foldl (fun acc x => insertSorted le x acc) acc l)
  | [], _, h => h
  | x :: xs, acc, h =>
    pySortAux_pairwise le htot htrans xs (insertSorted le x acc)
      (insertSorted_pairwise le htot htrans x acc h)

theorem pySort_pairwise {α : Type} (le : α → α → Bool)
    (htot : ∀ a b, le a b = true ∨ le b a = true)
    (htrans : ∀ a b c, le a b = true → le b c = true → le a c = true)
    (l : List α) :
    List.Pairwise (fun a b => le a b = true) (pySort le l) :=
  pySortAux_pairwise le htot htrans l [] (by simp)

theorem strLeb_total (a b : String) : strLeb a b = true ∨ strLeb b a = true :=
  lexLe_total a.data b.data

theorem strLeb_trans (a b c : String) :
    strLeb a b = true → strLeb b c = true → strLeb a c = true :=
  lexLe_trans a.data b.data c.data

theorem applyAction_errors_le (c : Counters) (act : SubAction) :
    c.errors ≤ (applyAction c act).errors := by
  cases act <;> simp [applyAction]

theorem submissionsLoop_errors_le (cfg : Config) (env : Env) (a : Assignment) :
    ∀ (subs : List Submission) (c c2 : Counters),
      submissionsLoop cfg env a subs c = Except.ok c2 → c.errors ≤ c2.errors
  | [], c, c2, h => by
    simp only [submissionsLoop] at h
    cases h
    exact Nat.le_refl _
  | s :: rest, c, c2, h => by
    simp only [submissionsLoop] at h
    cases hp : processSubmission cfg env a s with
    | error e => rw [hp] at h; exact absurd h (by simp)
    | ok act =>
      rw [hp] at h
      exact Nat.le_trans (applyAction_errors_le c act)
        (submissionsLoop_errors_le cfg env a rest _ c2 h)

theorem assignmentsLoop_errors_le (cfg : Config) (env : Env) :
    ∀ (l : List Assignment) (c c2 : Counters),
      assignmentsLoop cfg env l c = Except.ok c2 → c.errors ≤ c2.errors
  | [], c, c2, h => by
    simp only [assignmentsLoop] at h
    cases h
    exact Nat.le_refl _
  | a :: rest, c, c2, h => by
    simp only [assignmentsLoop] at h
    split at h
    · have h2 := assignmentsLoop_errors_le cfg env rest _ c2 h
      simp only at h2
      omega
    · split at h
      · exact absurd h (by simp)
      · rename_i cmid hl
        exact Nat.le_trans (submissionsLoop_errors_le cfg env a _ c cmid hl)
          (assignmentsLoop_errors_le cfg env rest cmid c2 h)

theorem assignmentsLoop_fetch_failure (cfg : Config) (env : Env) :
    ∀ (l : List Assignment) (c c2 : Counters) (a : Assignment),
      a ∈ l → env.subsOf a.id = none →
      assignmentsLoop cfg env l c = Except.ok c2 → c.errors + 1 ≤ c2.errors
  | [], _, _, _, hmem, _, _ => absurd hmem (List.not_mem_nil _)
  | b :: rest, c, c2, a, hmem, hfail, h => by
    simp only [assignmentsLoop] at h
    split at h
    · rename_i hsubsb
      rcases List.mem_cons.mp hmem with rfl | hmem2
      · have h2 := assignmentsLoop_errors_le cfg env rest _ c2 h
        simp only at h2
        omega
      · have h2 := assignmentsLoop_fetch_failure cfg env rest _ c2 a hmem2 hfail h
        simp only at h2
        omega
    · rename_i subs hsubsb
      rcases List.mem_cons.mp hmem with rfl | hmem2
      · rw [hfail] at hsubsb
        exact absurd hsubsb (by simp)
      · split at h
        · exact absurd h (by simp)
        · rename_i cmid hl
          have h1 := submissionsLoop_errors_le cfg env b subs c cmid hl
          have h2 := assignmentsLoop_fetch_failure cfg env rest cmid c2 a hmem2 hfail h
          omega

theorem desiredForCode_eq_spec (a : Assignment) (submitted_at : Option ℤ) :
    desiredForCode a submitted_at =
      desiredGradeSpec a.grading_type a.points_possible submitted_at.isSome := by
  cases submitted_at <;>
    simp [desiredForCode, desiredGradeSpec, Option.isSome]

deriving instance DecidableEq for Except

/-- Configuration for the sort scenario: defaults, no group filter, dry-run. -/
def cfg9 : Config := ⟨1, 7, none, true, false, true⟩

/-- Environment with the modeled iso parsing, empty submission lists and
always-succeeding writes. -/
def env9 : Env := ⟨isoparseModel, fun _ => some [], fun _ _ => true⟩

/-- Assignment due 2024-01-01T20:00:00Z (instant 72000). -/
def asgA : Assignment :=
  ⟨1, some "2024-01-01T20:00:00+00:00", some "complete_incomplete", none, none⟩

/-- Assignment due 2024-01-01T15:00:00Z (instant 54000), written with a +09:00
offset so that its raw string sorts after `asgA`'s. -/
def asgB : Assignment :=
  ⟨2, some "2024-01-02T00:00:00+09:00", some "complete_incomplete", none, none⟩

/-- Dry-run configuration that also processes non-binary grading types. -/
def cfgDry : Config := ⟨1, 7, none, true, false, false⟩

/-- Live (non-dry-run) configuration. -/
def cfgLive : Config := ⟨1, 7, none, false, false, true⟩

/-- Environment whose submission fetches always fail. -/
def envFail : Env := ⟨isoparseModel, fun _ => none, fun _ _ => true⟩

/-- A point-based assignment worth 5 points (fixed-point hundredths). -/
def asgPoints : Assignment :=
  ⟨7, some "2024-01-01T06:00:00+00:00", some "points", none, some 500⟩

/-- A submitted submission whose posted grade is already the "5" a first run
would have written. -/
def subPoints : Submission :=
  ⟨some 11, some "2024-01-01T06:00:00+00:00", some "5", none⟩

/-- A binary-completion assignment. -/
def asgBinary : Assignment :=
  ⟨3, some "2024-01-01T20:00:00+00:00", some "complete_incomplete", none, none⟩

/-- A submitted submission already graded "complete". -/
def subBinaryDone : Submission :=
  ⟨some 12, some "2024-01-01T06:00:00+00:00", some "complete", none⟩

/-- An assignment with an unparseable due timestamp. -/
def badAsg : Assignment := ⟨9, some "not-a-date", some "points", some "G", none⟩

/-- An assignment with a null due timestamp. -/
def noDueAsg : Assignment := ⟨4, none, some "points", some "G", none⟩

/-- Helper step lemma: a 429 response at the current attempt sends the loop to
the next attempt with the rate-limit sleep recorded. -/
theorem requestLoop_step_429 (oc : ℕ → HttpOutcome) (fuel attempt last : ℕ)
    (sleeps : List ℕ) (ra : Option String)
    (hoc : oc attempt = HttpOutcome.resp 429 ra) :
    requestLoop oc (fuel + 1) attempt last sleeps =
      requestLoop oc fuel (attempt + 1) 429 (rateLimitSleepQ ra attempt :: sleeps) := by
  simp [requestLoop, hoc]

/-- Helper step lemma: a response that is neither 429 nor 5xx is returned at
once. -/
theorem requestLoop_step_done (oc : ℕ → HttpOutcome) (fuel attempt last : ℕ)
    (sleeps : List ℕ) (status : ℕ) (ra : Option String)
    (hoc : oc attempt = HttpOutcome.resp status ra)
    (hn429 : status ≠ 429) (hn5 : ¬(500 ≤ status ∧ status ≤ 599)) :
    requestLoop oc (fuel + 1) attempt last sleeps =
      (ReqResult.returned status, sleeps.reverse) := by
  simp [requestLoop, hoc, hn429, hn5]

/-- Helper: if every remaining attempt yields a 429 response, the loop ends by
returning a 429 to the caller. -/
theorem requestLoop_all429 (oc : ℕ → HttpOutcome) :
    ∀ (fuel attempt last : ℕ) (sleeps : List ℕ), 0 < fuel →
      (∀ i, attempt ≤ i → i < attempt + fuel → ∃ ra, oc i = HttpOutcome.resp 429 ra) →
      (requestLoop oc fuel attempt last sleeps).fst = ReqResult.returned 429
  | 0, _, _, _, hf, _ => absurd hf (by omega)
  | fuel + 1, attempt, last, sleeps, _, h => by
    obtain ⟨ra, hra⟩ := h attempt (Nat.le_refl _) (by omega)
    rw [requestLoop_step_429 oc fuel attempt last sleeps ra hra]
    cases fuel with
    | zero => simp [requestLoop]
    | succ n =>
      exact requestLoop_all429 oc (n + 1) (attempt + 1) 429 _ (by omega)
        (fun i hi1 hi2 => h i (by omega) (by omega))

/-- C1 counterexample: with every attempt rate-limited, `_request` does not
retry indefinitely and does not shield the caller from the 429: each 429
consumes one attempt of the eight-attempt budget, the loop is exhausted, and
the fall-through `return resp` of line 155 hands the last 429 response to the
caller, after sleeps of 2, 4, 8, 16, 32, 60, 60, 60 seconds (quarter-units). -/
theorem rate_limited_request_returns_429 :
    clientRequest (fun _ => HttpOutcome.resp 429 none) =
      (ReqResult.returned 429, [8, 16, 32, 64, 128, 240, 240, 240]) := by decide

/-- C1 (amended): a 429 never makes `_request` raise, and within the attempt
budget it is always retried; but each 429 consumes one attempt, and when every
attempt of the budget is rate-limited the client stops and returns the last
429 response to the caller instead of retrying indefinitely. -/
theorem all_rate_limited_returns_last_429 (oc : ℕ → HttpOutcome)
    (h : ∀ i, 1 ≤ i → i ≤ max_attempts → ∃ ra, oc i = HttpOutcome.resp 429 ra) :
    (clientRequest oc).fst = ReqResult.returned 429 :=
  requestLoop_all429 oc max_attempts 1 0 [] (by decide)
    (fun i hi1 hi2 => h i hi1 (by omega))

/-- Witness for the amended C1 theorem at a concrete all-429 outcome stream. -/
theorem all_rate_limited_returns_last_429_spot :
    (clientRequest (fun _ => HttpOutcome.resp 429 (some "2"))).fst =
      ReqResult.returned 429 :=
  all_rate_limited_returns_last_429 (fun _ => HttpOutcome.resp 429 (some "2"))
    (fun _ _ _ => ⟨some "2", rfl⟩)

/-- Outcome stream: first attempt rate-limited with a numeric header, second
attempt succeeds. -/
def ocRetryAfter3 : ℕ → HttpOutcome :=
  fun i => if i = 1 then HttpOutcome.resp 429 (some "3") else HttpOutcome.resp 200 none

/-- C8 counterexample: on a 429 with no usable `Retry-After` header at attempt
1 the code sleeps `min(60, int(2.0 ** 1))` = 2 seconds (8 quarter-units), not
the transport/5xx backoff `min(60, 2.0 ** 1 * 0.25)` = 0.5 seconds (2
quarter-units) the claim asserts: line 140 omits the 0.25 coefficient. -/
theorem rate_limit_fallback_sleep_cex :
    clientRequest (fun i => if i = 1 then HttpOutcome.resp 429 none
      else HttpOutcome.resp 200 none) =
      (ReqResult.returned 200, [rateLimitSleepQ none 1]) ∧
    rateLimitSleepQ none 1 = 8 ∧ backoffSleepQ 1 = 2 ∧
    rateLimitSleepQ none 1 ≠ backoffSleepQ 1 := by decide

/-- C8 (amended): on HTTP 429, a present-and-numeric `Retry-After` header of
value n makes the client sleep n + 1 seconds (at least the header value);
otherwise it sleeps `min(60, int(2.0 ** attempt))` seconds — the exponential
base capped at 60 but without the 0.25 coefficient of the transport/5xx
backoff.  Concretely, a 429 carrying `Retry-After: 3` followed by a success
sleeps exactly 4 seconds (16 quarter-units) before the successful retry. -/
theorem rate_limit_sleep_amount (s : String) (attempt : ℕ) (oc : ℕ → HttpOutcome)
    (hdig : pyIsDigit s = true)
    (h1 : oc 1 = HttpOutcome.resp 429 (some "3"))
    (h2 : oc 2 = HttpOutcome.resp 200 none) :
    rateLimitSleepQ (some s) attempt = 4 * (pyToNat s + 1) ∧
    4 * pyToNat s ≤ rateLimitSleepQ (some s) attempt ∧
    rateLimitSleepQ none attempt = min 240 (4 * 2 ^ attempt) ∧
    clientRequest oc = (ReqResult.returned 200, [16]) := by
  refine ⟨by simp [rateLimitSleepQ, hdig], ?_, rfl, ?_⟩
  · simp only [rateLimitSleepQ, hdig, if_pos]
    omega
  · calc clientRequest oc
        = requestLoop oc (7 + 1) 1 0 [] := rfl
      _ = requestLoop oc 7 2 429 [rateLimitSleepQ (some "3") 1] :=
          requestLoop_step_429 oc 7 1 0 [] (some "3") h1
      _ = (ReqResult.returned 200, [rateLimitSleepQ (some "3") 1].reverse) :=
          requestLoop_step_done oc 6 2 429 [rateLimitSleepQ (some "3") 1] 200 none h2
            (by decide) (by decide)
      _ = (ReqResult.returned 200, [16]) := by decide

/-- Witness for the amended C8 theorem at a concrete header and stream. -/
theorem rate_limit_sleep_amount_spot :
    rateLimitSleepQ (some "3") 1 = 4 * (pyToNat "3" + 1) ∧
    4 * pyToNat "3" ≤ rateLimitSleepQ (some "3") 1 ∧
    rateLimitSleepQ none 1 = min 240 (4 * 2 ^ 1) ∧
    clientRequest ocRetryAfter3 = (ReqResult.returned 200, [16]) :=
  rate_limit_sleep_amount "3" 1 ocRetryAfter3 (by decide) rfl rfl

/-- Two-page server: the first page has 2 items and links to `page2`, which has
1 item and no further next reference. -/
def twoPageServer : ℕ → String → Page ℤ := fun _ url =>
  if url = "page2" then ⟨200, none, PageBody.list [30], none⟩
  else ⟨200, none, PageBody.list [10, 20], some "page2"⟩

/-- One-page server with an array body. -/
def onePageListServer : ℕ → String → Page ℤ :=
  fun _ _ => ⟨200, none, PageBody.list [1, 2], none⟩

/-- One-page server with a single-object body. -/
def onePageObjServer : ℕ → String → Page ℤ :=
  fun _ _ => ⟨200, none, PageBody.single 7, none⟩

/-- C5: the pagination reader yields each element of a sequence body, yields a
single-object body as that one object, and follows next references until none
remains; on a first page of 2 items linking to a second page of 1 item with no
further next, it yields exactly the 3 items in page order with exactly 2 fetch
calls. -/
theorem paginated_reader_yields :
    (∀ (server : ℕ → String → Page ℤ) (url : String) (fuel st : ℕ)
        (ra : Option String) (xs : List ℤ),
        server 0 url = ⟨st, ra, PageBody.list xs, none⟩ → respOk st = true →
        getPaginated server fuel url = Except.ok (xs, 1)) ∧
    (∀ (server : ℕ → String → Page ℤ) (url : String) (fuel st : ℕ)
        (ra : Option String) (x : ℤ),
        server 0 url = ⟨st, ra, PageBody.single x, none⟩ → respOk st = true →
        getPaginated server fuel url = Except.ok ([x], 1)) ∧
    getPaginated twoPageServer 10 "page1" = Except.ok ([10, 20, 30], 2) := by
  refine ⟨?_, ?_, by decide⟩
  · intro server url fuel st ra xs hs hok
    simp [getPaginated, hs, hok, pageYield]
  · intro server url fuel st ra x hs hok
    simp [getPaginated, hs, hok, pageYield]

/-- Witness for the C5 theorem's quantified parts at concrete one-page
servers. -/
theorem paginated_reader_yields_spot :
    getPaginated onePageListServer 5 "u" = Except.ok ([1, 2], 1) ∧
    getPaginated onePageObjServer 5 "u" = Except.ok ([7], 1) :=
  ⟨paginated_reader_yields.1 onePageListServer "u" 5 200 none [1, 2] rfl rfl,
   paginated_reader_yields.2.1 onePageObjServer "u" 5 200 none 7 rfl rfl⟩

/-- C4: for a fixed now and grace_days, window_days at least 0, the window is
`start = now - (grace + window) days`, `end = now - grace days`, with
`start < end` when `window_days` is positive, `start = end` when it is zero,
and `start ≤ end` always. -/
theorem compute_window_bounds (now grace window : ℤ)
    (_hg : 0 ≤ grace) (_hw : 0 ≤ window) :
    (compute_due_window now grace window).1 = now - secondsPerDay * (grace + window) ∧
    (compute_due_window now grace window).2 = now - secondsPerDay * grace ∧
    (0 < window →
      (compute_due_window now grace window).1 < (compute_due_window now grace window).2) ∧
    (window = 0 →
      (compute_due_window now grace window).1 = (compute_due_window now grace window).2) ∧
    (compute_due_window now grace window).1 ≤ (compute_due_window now grace window).2 := by
  refine ⟨rfl, rfl, ?_, ?_, ?_⟩ <;>
    simp only [compute_due_window, secondsPerDay] <;> omega

/-- Witness for the C4 theorem at the default 1-day grace, 7-day window. -/
theorem compute_window_bounds_spot :
    (compute_due_window 604800 1 7).1 = 604800 - secondsPerDay * (1 + 7) ∧
    (compute_due_window 604800 1 7).2 = 604800 - secondsPerDay * 1 ∧
    (0 < (7 : ℤ) →
      (compute_due_window 604800 1 7).1 < (compute_due_window 604800 1 7).2) ∧
    ((7 : ℤ) = 0 →
      (compute_due_window 604800 1 7).1 = (compute_due_window 604800 1 7).2) ∧
    (compute_due_window 604800 1 7).1 ≤ (compute_due_window 604800 1 7).2 :=
  compute_window_bounds 604800 1 7 (by decide) (by decide)

/-- C3: whenever the per-submission loop computes a decision for a submission
with a known user id and a parseable submitted timestamp, the desired grade it
carries is exactly the spec's desired-grade function of the assignment's
grading type, its maximum points, and submission presence. -/
theorem desired_grade_correct (cfg : Config) (env : Env) (a : Assignment)
    (s : Submission) (uid : ℤ) (su : Option ℤ) (act : SubAction)
    (hu : s.user_id = some uid)
    (hp : parse_canvas_datetime env.iso s.submitted_at = Except.ok su)
    (hact : processSubmission cfg env a s = Except.ok act) :
    actionDesired act =
      some (desiredGradeSpec a.grading_type a.points_possible su.isSome) := by
  simp only [processSubmission, hu, hp] at hact
  rw [← desiredForCode_eq_spec]
  split_ifs at hact <;> (injection hact with h2; subst h2; simp [actionDesired])

/-- Witness for the C3 theorem at a concrete point-based assignment. -/
theorem desired_grade_correct_spot :
    actionDesired (SubAction.dryRunUpdate 11 "5") =
      some (desiredGradeSpec asgPoints.grading_type asgPoints.points_possible
        (some (21600 : ℤ)).isSome) :=
  desired_grade_correct cfgDry env9 asgPoints subPoints 11 (some 21600)
    (SubAction.dryRunUpdate 11 "5") rfl (by decide) (by decide)

/-- C2 counterexample: a point-based assignment worth 5 points with a
submitted submission; the desired grade is "5" and the posted grade is already
"5" — the value a first run wrote — yet `normalize_ci_grade` maps "5" to
`None`, the needs-write comparison evaluates true, and the submission is
written again instead of skipped. -/
theorem idempotence_cex :
    desiredGradeSpec asgPoints.grading_type asgPoints.points_possible true = "5" ∧
    subPoints.posted_grade = some "5" ∧
    processSubmission cfgDry env9 asgPoints subPoints =
      Except.ok (SubAction.dryRunUpdate 11 "5") := by decide

/-- C2 (amended): idempotence holds for binary-completion assignments: when
the assignment's grading type is `complete_incomplete` and the posted grade
already equals the desired grade the first run wrote, the needs-write
comparison evaluates false and the submission is skipped.  (For point-based
assignments the numeric desired grade never normalizes equal, so a rewrite
recurs every run — the section 9 edge case.) -/
theorem idempotence_binary (cfg : Config) (env : Env) (a : Assignment)
    (s : Submission) (uid : ℤ) (su : Option ℤ)
    (hbin : a.grading_type = some "complete_incomplete")
    (hu : s.user_id = some uid)
    (hp : parse_canvas_datetime env.iso s.submitted_at = Except.ok su)
    (hposted : s.posted_grade =
      some (desiredGradeSpec a.grading_type a.points_possible su.isSome)) :
    processSubmission cfg env a s =
      Except.ok (SubAction.skipSame uid
        (desiredGradeSpec a.grading_type a.points_possible su.isSome)) := by
  have hd : desiredForCode a su =
      desiredGradeSpec a.grading_type a.points_possible su.isSome :=
    desiredForCode_eq_spec a su
  have hnc : normalize_ci_grade (some "complete") = some "complete" := by decide
  have hni : normalize_ci_grade (some "incomplete") = some "incomplete" := by decide
  have hcur : currentGrade s =
      some (desiredGradeSpec a.grading_type a.points_possible su.isSome) := by
    simp only [currentGrade, hposted, hbin, desiredGradeSpec]
    cases hsu : su.isSome <;> simp [hsu, hnc, hni]
  simp only [processSubmission, hu, hp]
  rw [hd, if_pos hcur]

/-- Witness for the amended C2 theorem at a concrete binary assignment whose
posted grade is already "complete". -/
theorem idempotence_binary_spot :
    processSubmission cfgDry env9 asgBinary subBinaryDone =
      Except.ok (SubAction.skipSame 12
        (desiredGradeSpec asgBinary.grading_type asgBinary.points_possible
          (some (21600 : ℤ)).isSome)) :=
  idempotence_binary cfgDry env9 asgBinary subBinaryDone 12 (some 21600)
    rfl rfl (by decide) (by decide)

/-- C7 counterexample: an assignment whose due timestamp is present but
unparseable is not excluded by the eligibility check: `dtparser.isoparse`
raises `ValueError` inside the eligibility loop (lines 244-247 handle only the
null/empty case) and the whole run aborts before any sort or grading. -/
theorem bad_due_date_cex :
    runMain cfgDry env9 604800 0 0 0 [badAsg] =
      Except.error "ValueError: unparseable datetime" ∧
    badAsg.due_at = some "not-a-date" ∧
    isoparseModel "not-a-date" = none := by decide

/-- C7 (amended): an assignment with a null (or empty, hence falsy) due
timestamp is excluded by the eligibility loop without error, regardless of the
group or grading-type filters; but an assignment with a non-empty unparseable
due timestamp makes the run raise an uncaught parse error, aborting it before
the sort, instead of being excluded. -/
theorem bad_due_date_amended :
    (∀ (iso : String → Option ℤ) (cfg : Config) (start_t end_t : ℤ)
        (a : Assignment) (rest : List Assignment), a.due_at = none →
        eligibleAssignments iso cfg start_t end_t (a :: rest) =
          eligibleAssignments iso cfg start_t end_t rest) ∧
    (∀ (iso : String → Option ℤ) (cfg : Config) (start_t end_t : ℤ)
        (a : Assignment) (rest : List Assignment) (ds : String),
        a.due_at = some ds → ds.data.isEmpty = false → iso ds = none →
        eligibleAssignments iso cfg start_t end_t (a :: rest) =
          Except.error "ValueError: unparseable datetime") := by
  constructor
  · intro iso cfg start_t end_t a rest hnone
    simp [eligibleAssignments, parse_canvas_datetime, hnone]
  · intro iso cfg start_t end_t a rest ds hsome hne hbad
    simp [eligibleAssignments, parse_canvas_datetime, hsome, hne, hbad]

/-- Witness for the amended C7 theorem: a null due date is skipped without
error, an unparseable one raises. -/
theorem bad_due_date_amended_spot :
    eligibleAssignments isoparseModel cfgDry 0 100000 [noDueAsg] =
      eligibleAssignments isoparseModel cfgDry 0 100000 [] ∧
    eligibleAssignments isoparseModel cfgDry 0 100000 [badAsg] =
      Except.error "ValueError: unparseable datetime" :=
  ⟨bad_due_date_amended.1 isoparseModel cfgDry 0 100000 noDueAsg [] rfl,
   bad_due_date_amended.2 isoparseModel cfgDry 0 100000 badAsg [] "not-a-date"
     rfl (by decide) (by decide)⟩

/-- C9 counterexample: the orchestrator sorts eligible assignments by the raw
`due_at` string (line 313), not by the parsed instant.  Assignment `asgB`'s due
instant (2024-01-02T00:00:00+09:00 = 54000 s) is strictly earlier than
`asgA`'s (2024-01-01T20:00:00+00:00 = 72000 s), yet `asgA` is processed first
— even when `asgB` comes first in the fetched list — because `asgA`'s string
sorts lower. -/
theorem sort_order_cex :
    runMain cfg9 env9 604800 0 0 0 [asgB, asgA] =
      Except.ok ⟨0, [asgA, asgB], 0, 0, 0⟩ ∧
    asgB.due_at = some "2024-01-02T00:00:00+09:00" ∧
    asgA.due_at = some "2024-01-01T20:00:00+00:00" ∧
    isoparseModel "2024-01-02T00:00:00+09:00" = some 54000 ∧
    isoparseModel "2024-01-01T20:00:00+00:00" = some 72000 ∧
    (54000 : ℤ) < 72000 := by decide

/-- C9 (amended): the orchestrator processes eligible assignments sorted
ascending by the raw `due_at` string (lexicographic by code point): the
processed list is a permutation of the eligible list that is pairwise ordered
by that key.  This coincides with ascending due-instant order exactly when the
raw strings are uniformly formatted, but not in general (see the
counterexample). -/
theorem processed_sorted_by_due_string (cfg : Config) (env : Env)
    (now_local : ℤ) (weekday hour minute : ℕ) (assignments : List Assignment)
    (r : RunResult) (elig : List Assignment)
    (hr : runMain cfg env now_local weekday hour minute assignments = Except.ok r)
    (hgate : should_run_now cfg.enforce_thursday_5pm weekday hour minute = true)
    (helig : eligibleAssignments env.iso cfg
        (compute_due_window now_local cfg.grace_days cfg.window_days).1
        (compute_due_window now_local cfg.grace_days cfg.window_days).2
        assignments = Except.ok elig) :
    List.Perm r.processed elig ∧
    List.Pairwise (fun a b => strLeb (sortKey a) (sortKey b) = true) r.processed := by
  simp only [runMain, hgate, Bool.not_true, Bool.false_eq_true, if_false] at hr
  rw [helig] at hr
  dsimp only at hr
  split at hr
  · exact absurd hr (by simp)
  · simp only [Except.ok.injEq] at hr
    subst hr
    dsimp only
    refine ⟨pySort_perm _ elig, pySort_pairwise _ ?_ ?_ elig⟩
    · exact fun a b => strLeb_total (sortKey a) (sortKey b)
    · exact fun x y z hxy hyz =>
        strLeb_trans (sortKey x) (sortKey y) (sortKey z) hxy hyz

/-- Witness for the amended C9 theorem at the two-assignment scenario. -/
theorem processed_sorted_by_due_string_spot :
    List.Perm (RunResult.processed ⟨0, [asgA, asgB], 0, 0, 0⟩) [asgB, asgA] ∧
    List.Pairwise (fun a b => strLeb (sortKey a) (sortKey b) = true)
      (RunResult.processed ⟨0, [asgA, asgB], 0, 0, 0⟩) :=
  processed_sorted_by_due_string cfg9 env9 604800 0 0 0 [asgB, asgA]
    ⟨0, [asgA, asgB], 0, 0, 0⟩ [asgB, asgA] (by decide) rfl (by decide)

/-- C6: a completed run returns 2 exactly when dry-run is off and at least one
error was counted; in every other case (dry-run, gated-off, or zero errors) it
returns 0, and no other exit value occurs. -/
theorem exit_code_contract (cfg : Config) (env : Env) (now_local : ℤ)
    (weekday hour minute : ℕ) (assignments : List Assignment) (r : RunResult)
    (hr : runMain cfg env now_local weekday hour minute assignments = Except.ok r) :
    (r.exitCode = 2 ↔ cfg.dry_run = false ∧ 1 ≤ r.errors) ∧
    (r.exitCode = 0 ∨ r.exitCode = 2) := by
  simp only [runMain] at hr
  cases hgate : should_run_now cfg.enforce_thursday_5pm weekday hour minute
  · rw [hgate] at hr
    simp only [Bool.not_false, if_true, Except.ok.injEq] at hr
    subst hr
    simp
  · rw [hgate] at hr
    simp only [Bool.not_true, Bool.false_eq_true, if_false] at hr
    split at hr
    · exact absurd hr (by simp)
    · split at hr
      · exact absurd hr (by simp)
      · rename_i c hloop
        simp only [Except.ok.injEq] at hr
        subst hr
        dsimp only
        cases hd : cfg.dry_run <;> by_cases he : 0 < c.errors <;>
          simp [hd, he] <;> omega

/-- Witness for the C6 theorem at a trivial completed run. -/
theorem exit_code_contract_spot :
    (RunResult.exitCode ⟨0, [], 0, 0, 0⟩ = 2 ↔
      cfgDry.dry_run = false ∧ 1 ≤ RunResult.errors ⟨0, [], 0, 0, 0⟩) ∧
    (RunResult.exitCode ⟨0, [], 0, 0, 0⟩ = 0 ∨
      RunResult.exitCode ⟨0, [], 0, 0, 0⟩ = 2) :=
  exit_code_contract cfgDry env9 604800 0 0 0 [] ⟨0, [], 0, 0, 0⟩ (by decide)

/-- C10: a failed submission fetch for an eligible assignment is caught,
counted in the run's error counter, and the assignment skipped; hence in live
(non-dry-run) mode one such failure alone forces exit code 2, whatever the
other writes did. -/
theorem fetch_failure_forces_exit_2 (cfg : Config) (env : Env) (now_local : ℤ)
    (weekday hour minute : ℕ) (assignments : List Assignment) (r : RunResult)
    (a : Assignment) (hdry : cfg.dry_run = false)
    (hr : runMain cfg env now_local weekday hour minute assignments = Except.ok r)
    (hmem : a ∈ r.processed) (hfail : env.subsOf a.id = none) :
    r.exitCode = 2 := by
  simp only [runMain] at hr
  cases hgate : should_run_now cfg.enforce_thursday_5pm weekday hour minute
  · rw [hgate] at hr
    simp only [Bool.not_false, if_true, Except.ok.injEq] at hr
    subst hr
    exact absurd hmem (List.not_mem_nil a)
  · rw [hgate] at hr
    simp only [Bool.not_true, Bool.false_eq_true, if_false] at hr
    split at hr
    · exact absurd hr (by simp)
    · split at hr
      · exact absurd hr (by simp)
      · rename_i c hloop
        simp only [Except.ok.injEq] at hr
        rw [← hr] at hmem ⊢
        dsimp only at hmem ⊢
        have herr := assignmentsLoop_fetch_failure cfg env _ _ c a hmem hfail hloop
        have hpos : 0 < c.errors := by
          simp only at herr
          omega
        simp [hdry, hpos]

/-- Witness for the C10 theorem at a concrete live run whose only assignment
has a failing submission fetch. -/
theorem fetch_failure_forces_exit_2_spot :
    RunResult.exitCode ⟨2, [asgA], 0, 0, 1⟩ = 2 :=
  fetch_failure_forces_exit_2 cfgLive envFail 604800 0 0 0 [asgA]
    ⟨2, [asgA], 0, 0, 1⟩ asgA rfl (by decide) (by decide) rfl
